import Mathlib

set_option linter.unusedVariables false

namespace Softnet

/-!
Shallow embedding of the softnet packet-filtering proxy core
(cirruslabs/softnet).  Frames and packets are byte buffers, modelled as
lists of natural numbers (one entry per byte).  Out-of-range reads
return 0; they are only exercised behind the length checks mirrored
from the smoltcp wire parsers, exactly as in the source.  IPv4
addresses are modelled as their 32-bit big-endian numeric value.
Wall-clock instants (std::time::Instant) are modelled as a natural
number `now` threaded explicitly.
-/

/-- Big-endian 16-bit field read at offset `i` (smoltcp NetworkEndian::read_u16). -/
def be16 (bs : List Nat) (i : Nat) : Nat :=
  bs.getD i 0 * 256 + bs.getD (i + 1) 0

/-- Big-endian 32-bit field read at offset `i`; used for the IPv4 address
fields of the IPv4 header (smoltcp Ipv4Address::from_bytes on a 4-byte field). -/
def ipv4At (bs : List Nat) (i : Nat) : Nat :=
  ((bs.getD i 0 * 256 + bs.getD (i + 1) 0) * 256 + bs.getD (i + 2) 0) * 256
    + bs.getD (i + 3) 0

/-- Numeric value of the IPv4 address with octets `a.b.c.d` (Ipv4Addr::new). -/
def mkIpv4 (a b c d : Nat) : Nat := ((a * 256 + b) * 256 + c) * 256 + d

/-! ## Ethernet (smoltcp::wire::EthernetFrame)

`EthernetFrame::new_checked` only requires the buffer to hold the
14-byte Ethernet II header; `payload()` is everything after it. -/

/-- EthernetFrame::check_len: the buffer holds at least the 14-byte header. -/
def ethCheckLen (f : List Nat) : Bool := decide (14 ≤ f.length)

/-- EthernetFrame::src_addr: bytes 6..12. -/
def ethSrcAddr (f : List Nat) : List Nat := (f.drop 6).take 6

/-- EthernetFrame::dst_addr: bytes 0..6. -/
def ethDstAddr (f : List Nat) : List Nat := f.take 6

/-- EthernetFrame::ethertype: big-endian 16-bit field at offset 12.
ARP is 0x0806 = 2054, IPv4 is 0x0800 = 2048. -/
def ethertype (f : List Nat) : Nat := be16 f 12

/-- EthernetFrame::payload: bytes from offset 14 on. -/
def ethPayload (f : List Nat) : List Nat := f.drop 14

/-! ## IPv4 (smoltcp::wire::Ipv4Packet) -/

/-- Ipv4Packet::header_len: low nibble of byte 0, in 32-bit words. -/
def ipv4HeaderLen (p : List Nat) : Nat := p.getD 0 0 % 16 * 4

/-- Ipv4Packet::total_len: big-endian 16-bit field at offset 2. -/
def ipv4TotalLen (p : List Nat) : Nat := be16 p 2

/-- Ipv4Packet::check_len: buffer at least 20 bytes, long enough for the
declared header length, header length not exceeding the total length, and
buffer long enough for the total length. -/
def ipv4CheckLen (p : List Nat) : Bool :=
  decide (20 ≤ p.length) && decide (ipv4HeaderLen p ≤ p.length) &&
  decide (ipv4HeaderLen p ≤ ipv4TotalLen p) && decide (ipv4TotalLen p ≤ p.length)

/-- Ipv4Packet::src_addr: bytes 12..16. -/
def ipv4SrcAddr (p : List Nat) : Nat := ipv4At p 12

/-- Ipv4Packet::dst_addr: bytes 16..20. -/
def ipv4DstAddr (p : List Nat) : Nat := ipv4At p 16

/-- Ipv4Packet::next_header (a.k.a. protocol): byte 9.  UDP is 17. -/
def ipv4NextHeader (p : List Nat) : Nat := p.getD 9 0

/-- Ipv4Packet::payload: bytes from header_len up to total_len. -/
def ipv4Payload (p : List Nat) : List Nat :=
  (p.take (ipv4TotalLen p)).drop (ipv4HeaderLen p)

/-! ## UDP (smoltcp::wire::UdpPacket) -/

/-- UdpPacket::len: big-endian 16-bit length field at offset 4. -/
def udpLenField (p : List Nat) : Nat := be16 p 4

/-- UdpPacket::check_len: buffer at least 8 bytes, the length field fits in
the buffer, and the length field covers at least the 8-byte header. -/
def udpCheckLen (p : List Nat) : Bool :=
  decide (8 ≤ p.length) && decide (udpLenField p ≤ p.length) &&
  decide (8 ≤ udpLenField p)

/-- UdpPacket::src_port: big-endian 16-bit field at offset 0. -/
def udpSrcPort (p : List Nat) : Nat := be16 p 0

/-- UdpPacket::dst_port: big-endian 16-bit field at offset 2. -/
def udpDstPort (p : List Nat) : Nat := be16 p 2

/-! ## UdpPacketHelper (src/lib/proxy/udp_packet_helper.rs) -/

/-- UdpPacketHelper::is_dns_request: destination port is 53. -/
def is_dns_request (udp : List Nat) : Bool := udpDstPort udp == 53

/-- UdpPacketHelper::is_dhcp_request: source port 68 (BOOTPC) or
destination port 67 (BOOTPS). -/
def is_dhcp_request (udp : List Nat) : Bool :=
  udpSrcPort udp == 68 || udpDstPort udp == 67

/-- UdpPacketHelper::is_dhcp_response: source port 67 or destination port 68. -/
def is_dhcp_response (udp : List Nat) : Bool :=
  udpSrcPort udp == 67 || udpDstPort udp == 68

/-! ## ARP (smoltcp::wire::ArpPacket)

The field layout after the 8-byte fixed header depends on the packet's
own hardware-length (byte 4) and protocol-length (byte 5) fields:
SHA = 8 .. 8+hlen, SPA = 8+hlen .. 8+hlen+plen. -/

/-- ArpPacket::hardware_len: byte 4. -/
def arpHardwareLen (p : List Nat) : Nat := p.getD 4 0

/-- ArpPacket::protocol_len: byte 5. -/
def arpProtocolLen (p : List Nat) : Nat := p.getD 5 0

/-- ArpPacket::check_len: buffer at least 8 bytes and long enough for the
TPA field end, i.e. 8 + 2*hlen + 2*plen bytes. -/
def arpCheckLen (p : List Nat) : Bool :=
  decide (8 ≤ p.length) &&
  decide (8 + 2 * arpHardwareLen p + 2 * arpProtocolLen p ≤ p.length)

/-- ArpPacket::source_hardware_addr: hlen bytes starting at offset 8. -/
def arpSourceHardwareAddr (p : List Nat) : List Nat :=
  (p.drop 8).take (arpHardwareLen p)

/-- ArpPacket::source_protocol_addr: plen bytes starting at offset 8+hlen. -/
def arpSourceProtocolAddr (p : List Nat) : List Nat :=
  (p.drop (8 + arpHardwareLen p)).take (arpProtocolLen p)

/-- The `let spa : [u8; 4] = slice.try_into()` conversion in
allowed_from_vm_arp: succeeds exactly when the slice has 4 bytes. -/
def bytesToIpv4 (bs : List Nat) : Option Nat :=
  match bs with
  | [a, b, c, d] => some (((a * 256 + b) * 256 + c) * 256 + d)
  | _ => none

/-! ## Address classification -/

/-- smoltcp Ipv4Address::is_broadcast: the limited broadcast 255.255.255.255. -/
def isBroadcastAddr (a : Nat) : Bool := a == mkIpv4 255 255 255 255

/-- Whether address `a` lies in the CIDR network `net/len` (comparison of
the first `len` bits). -/
def ipv4InNet (a net len : Nat) : Bool :=
  a / 2 ^ (32 - len) == net / 2 ^ (32 - len)

/-- ip_network::Ipv4Network::is_global specialised to the single-host /32
network built by IpNetwork::from(dst_addr) in allowed_from_vm_ipv4: true
for the two globally routable exceptions 192.0.0.9 and 192.0.0.10,
otherwise true iff the address is in none of the special-purpose ranges
(private, loopback, link-local, broadcast, documentation, shared,
IETF protocol assignments, reserved, benchmarking, multicast, 0.0.0.0/8). -/
def is_global (a : Nat) : Bool :=
  if a == mkIpv4 192 0 0 9 || a == mkIpv4 192 0 0 10 then true
  else
    !(ipv4InNet a (mkIpv4 10 0 0 0) 8) &&
    !(ipv4InNet a (mkIpv4 172 16 0 0) 12) &&
    !(ipv4InNet a (mkIpv4 192 168 0 0) 16) &&
    !(ipv4InNet a (mkIpv4 127 0 0 0) 8) &&
    !(ipv4InNet a (mkIpv4 169 254 0 0) 16) &&
    !(a == mkIpv4 255 255 255 255) &&
    !(ipv4InNet a (mkIpv4 192 0 2 0) 24) &&
    !(ipv4InNet a (mkIpv4 198 51 100 0) 24) &&
    !(ipv4InNet a (mkIpv4 203 0 113 0) 24) &&
    !(ipv4InNet a (mkIpv4 100 64 0 0) 10) &&
    !(ipv4InNet a (mkIpv4 192 0 0 0) 24) &&
    !(ipv4InNet a (mkIpv4 240 0 0 0) 4) &&
    !(ipv4InNet a (mkIpv4 198 18 0 0) 15) &&
    !(ipv4InNet a (mkIpv4 224 0 0 0) 4) &&
    !(a / 2 ^ 24 == 0)

/-! ## DHCP snooper (src/lib/dhcp_snooper.rs)

std::time::Instant is modelled as a natural number; the DNS set
(HashSet of Ipv4Address) is modelled as a list queried by membership. -/

/-- Lease: the address learned from a DHCP ACK, its expiry instant and
the DNS resolver set delivered with it. -/
structure Lease where
  address : Nat
  valid_until : Nat
  dns_ips : List Nat
deriving DecidableEq, Repr

/-- Lease::valid: Instant::now() < valid_until, with the current instant
passed explicitly. -/
def Lease.valid (l : Lease) (now : Nat) : Bool := decide (now < l.valid_until)

/-- Lease::valid_ip_source: the address matches and the lease is unexpired. -/
def Lease.valid_ip_source (l : Lease) (a : Nat) (now : Nat) : Bool :=
  l.address == a && l.valid now

/-- DhcpSnooper::valid_dns_target on the snooper state `vm_lease`: a lease
is present and the address is in its DNS set (expiry is not checked). -/
def valid_dns_target (vm_lease : Option Lease) (a : Nat) : Bool :=
  match vm_lease with
  | some l => l.dns_ips.contains a
  | none => false

/-- dhcproto::v4::MessageType as matched by register_dhcp_reply: only Ack
and Nak are distinguished, every other message type is collapsed. -/
inductive MessageType where
  | Ack : MessageType
  | Nak : MessageType
  | Other : MessageType
deriving DecidableEq, Repr

/-- The fields of a decoded dhcproto::v4::Message that register_dhcp_reply
reads: opts().msg_type(), yiaddr(), and the AddressLeaseTime and
DomainNameServer options (None covers both a missing option and an option
decoded as a different variant, the `_ =>` arms of the source matches). -/
structure Message where
  msg_type : Option MessageType
  yiaddr : Nat
  address_lease_time : Option Nat
  domain_name_server : Option (List Nat)
deriving DecidableEq, Repr

/-- DhcpSnooper::register_dhcp_reply as a transition on the snooper state
`vm_lease`.  The external dhcproto decoder is abstracted as the `decoded`
argument: `none` models a payload on which Message::decode fails (the
early return).  An Ack without an AddressLeaseTime option returns early;
an Ack with one replaces the lease with yiaddr, now + lease_time and the
DomainNameServer option (empty set when absent); a Nak clears the lease;
any other message type leaves the state unchanged. -/
def register_dhcp_reply (vm_lease : Option Lease) (now : Nat)
    (decoded : Option Message) : Option Lease :=
  match decoded with
  | none => vm_lease
  | some m =>
    match m.msg_type with
    | some MessageType.Ack =>
      match m.address_lease_time with
      | none => vm_lease
      | some t =>
        some { address := m.yiaddr
               valid_until := now + t
               dns_ips := m.domain_name_server.getD [] }
    | some MessageType.Nak => none
    | _ => vm_lease

/-! ## Rule table (prefix_trie::PrefixMap over ipnet::Ipv4Net)

The trie maps IPv4 CIDR prefixes to actions.  Two prefixes are the same
trie key iff they have the same length and agree on the bits covered by
it.  We model the map as an association list with unique keys, built by
insert-with-overwrite, and model get_lpm as the entry with the longest
prefix containing the queried address. -/

/-- Action (src/lib/proxy/mod.rs). -/
inductive Action where
  | Block : Action
  | Allow : Action
deriving DecidableEq, Repr

/-- An ipnet::Ipv4Net: an address together with a prefix length. -/
structure Ipv4Net where
  addr : Nat
  len : Nat
deriving DecidableEq, Repr

/-- Whether two nets are the same trie key: equal prefix length and equal
masked bits. -/
def sameKey (m k : Ipv4Net) : Bool :=
  m.len == k.len && m.addr / 2 ^ (32 - m.len) == k.addr / 2 ^ (32 - k.len)

/-- PrefixMap::insert: overwrite the value when the key is present,
otherwise add the entry. -/
def rulesInsert (rs : List (Ipv4Net × Action)) (k : Ipv4Net) (a : Action) :
    List (Ipv4Net × Action) :=
  match rs with
  | [] => [(k, a)]
  | e :: rest =>
    if sameKey e.1 k then (e.1, a) :: rest else e :: rulesInsert rest k a

/-- PrefixMap::get (exact-key lookup). -/
def rulesLookup (rs : List (Ipv4Net × Action)) (k : Ipv4Net) : Option Action :=
  match rs with
  | [] => none
  | e :: rest => if sameKey e.1 k then some e.2 else rulesLookup rest k

/-- Whether the net contains the address (the first len bits agree). -/
def netContains (n : Ipv4Net) (a : Nat) : Bool :=
  a / 2 ^ (32 - n.len) == n.addr / 2 ^ (32 - n.len)

/-- PrefixMap::get_lpm on the /32 host net of an address: the entry whose
prefix contains the address and has the greatest prefix length.  Keys in
a map built by rulesInsert are unique, so at most one entry exists per
length and the maximum is unambiguous. -/
def get_lpm (rs : List (Ipv4Net × Action)) (a : Nat) : Option (Ipv4Net × Action) :=
  rs.foldl
    (fun best e =>
      if netContains e.1 a then
        match best with
        | none => some e
        | some b => if b.1.len < e.1.len then some e else some b
      else best)
    none

/-- The rule-crafting loop of Proxy::new: all Allow entries are inserted
first, then all Block entries, so a Block overwrites an Allow with the
identical prefix. -/
def craft_rules (allow block : List Ipv4Net) : List (Ipv4Net × Action) :=
  block.foldl (fun acc n => rulesInsert acc n Action.Block)
    (allow.foldl (fun acc n => rulesInsert acc n Action.Allow) [])

/-! ## Proxy state and the VM→host filter (src/lib/proxy/vm.rs)

The fields of struct Proxy read by the VM→host direction, plus the
explicit current instant.  The host interface is represented by its
gateway_ip, the only field the filter consults.  The snooper is its
`vm_lease` state.

Early returns inside the Rust functions are encoded with an extra Option
layer where needed: `allowed_from_vm_arp` returns `none` to model the
panic of the `try_into().unwrap()` on a source-protocol-address slice
that does not have exactly 4 bytes, and `some r` for a normal return of
`r`.  `allowed_from_vm_ipv4_leased` models the first block of
allowed_from_vm_ipv4 (guarded by a valid lease matching the source):
`some r` means the block early-returns `r`, `none` means execution falls
through to the DHCP-broadcast clause. -/

structure Proxy where
  vm_mac_address : List Nat
  dhcp_snooper : Option Lease
  rules : List (Ipv4Net × Action)
  gateway_ip : Nat
  now : Nat

/-- allowed_from_vm_arp.  Requires the ARP source hardware address to
equal the VM MAC, converts the source protocol address to an Ipv4Addr
(the panicking unwrap is modelled by the outer `none`), then: with a
lease, allow iff valid_ip_source; without one, allow iff the address is
unspecified (0.0.0.0). -/
def allowed_from_vm_arp (p : Proxy) (arp_pkt : List Nat) : Option (Option Unit) :=
  if arpSourceHardwareAddr arp_pkt ≠ p.vm_mac_address then some none
  else
    match bytesToIpv4 (arpSourceProtocolAddr arp_pkt) with
    | none => none
    | some spa =>
      match p.dhcp_snooper with
      | some lease =>
        if lease.valid_ip_source spa p.now then some (some ()) else some none
      | none =>
        if spa == 0 then some (some ()) else some none

/-- The first block of allowed_from_vm_ipv4, entered when a lease exists
and lease.valid_ip_source(ipv4.src) holds: user rules (get_lpm on a
non-empty table) decide first, then global destinations, then the
gateway, then parseable UDP DNS requests to learned resolvers.  `some r`
is an early return of `r` (a failed UDP parse inside this block
early-returns None via the `?` operator), `none` falls through. -/
def allowed_from_vm_ipv4_leased (p : Proxy) (ipv4_pkt : List Nat) :
    Option (Option Unit) :=
  match p.dhcp_snooper with
  | none => none
  | some lease =>
    if lease.valid_ip_source (ipv4SrcAddr ipv4_pkt) p.now then
      let dst_addr := ipv4DstAddr ipv4_pkt
      match (if p.rules.isEmpty then none else get_lpm p.rules dst_addr) with
      | some (_, Action.Allow) => some (some ())
      | some (_, Action.Block) => some none
      | none =>
        if is_global dst_addr then some (some ())
        else if dst_addr == p.gateway_ip then some (some ())
        else if ipv4NextHeader ipv4_pkt == 17 then
          if udpCheckLen (ipv4Payload ipv4_pkt) then
            if is_dns_request (ipv4Payload ipv4_pkt)
                && valid_dns_target p.dhcp_snooper dst_addr then
              some (some ())
            else none
          else some none
        else none
    else none

/-- allowed_from_vm_ipv4: the leased block first; when it falls through,
the unconditional DHCP-bootstrap clause: a parseable UDP packet that
is_dhcp_request and a limited-broadcast destination. -/
def allowed_from_vm_ipv4 (p : Proxy) (ipv4_pkt : List Nat) : Option Unit :=
  match allowed_from_vm_ipv4_leased p ipv4_pkt with
  | some r => r
  | none =>
    if ipv4NextHeader ipv4_pkt == 17 then
      if udpCheckLen (ipv4Payload ipv4_pkt) then
        if is_dhcp_request (ipv4Payload ipv4_pkt)
            && isBroadcastAddr (ipv4DstAddr ipv4_pkt) then
          some ()
        else none
      else none
    else none

/-- allowed_from_vm: MAC anti-spoofing first, then dispatch on the
ethertype; ARP and IPv4 payloads are parsed with new_checked (a parse
failure is a drop via `.ok()?`), anything else is dropped.  The outer
Option models a panic as in allowed_from_vm_arp. -/
def allowed_from_vm (p : Proxy) (frame : List Nat) : Option (Option Unit) :=
  if ethSrcAddr frame ≠ p.vm_mac_address then some none
  else if ethertype frame == 0x0806 then
    if arpCheckLen (ethPayload frame) then allowed_from_vm_arp p (ethPayload frame)
    else some none
  else if ethertype frame == 0x0800 then
    if ipv4CheckLen (ethPayload frame) then
      some (allowed_from_vm_ipv4 p (ethPayload frame))
    else some none
  else some none

/-- process_frame_from_vm: a frame that the filter allows is written to
the host interface (modelled as `some (some frame)`), a blocked frame is
not (`some none`); the outer `none` models a panic inside the filter. -/
def process_frame_from_vm (p : Proxy) (frame : List Nat) :
    Option (Option (List Nat)) :=
  match allowed_from_vm p frame with
  | none => none
  | some none => some none
  | some (some _) => some (some frame)

/-! ## PortForwarder (src/lib/proxy/port_forwarder.rs)

Host mutations are recorded as an event trace; whether each individual
host call succeeds is abstracted as the `oracle` argument (the vendor
interface can fail).  A failing call still appears in the trace (the
host was called) but aborts tick_inner via the `?` operator before the
corresponding forwarding_to_addr update, latching `failed`. -/

/-- A host-interface port-forwarding mutation. -/
inductive HostCall where
  | add_rule : Nat → Nat → Nat → HostCall
  | remove_rule : Nat → HostCall
deriving DecidableEq, Repr

/-- One entry of PortForwarder::port_forwardings. -/
structure PortForwarding where
  external_port : Nat
  internal_port : Nat
  forwarding_to_addr : Option Nat
deriving DecidableEq, Repr

/-- PortForwarder state. -/
structure PortForwarder where
  port_forwardings : List PortForwarding
  failed : Bool
deriving DecidableEq, Repr

/-- The per-forwarding loop of tick_inner for a valid lease with address
`addr`: an up-to-date forwarding is skipped; an outdated one is removed
and, on success, reinstalled; an uninstalled one is installed.  Returns
the updated forwardings, the trace of host calls, and whether every call
succeeded (false aborts the loop as the `?` operator does). -/
def tickLoop (oracle : HostCall → Bool) (addr : Nat) :
    List PortForwarding → List PortForwarding × List HostCall × Bool
  | [] => ([], [], true)
  | pf :: rest =>
    match pf.forwarding_to_addr with
    | some installed_addr =>
      if installed_addr == addr then
        let r := tickLoop oracle addr rest
        (pf :: r.1, r.2.1, r.2.2)
      else if oracle (HostCall.remove_rule pf.external_port) then
        if oracle (HostCall.add_rule pf.external_port addr pf.internal_port) then
          let r := tickLoop oracle addr rest
          ({ pf with forwarding_to_addr := some addr } :: r.1,
            HostCall.remove_rule pf.external_port
              :: HostCall.add_rule pf.external_port addr pf.internal_port :: r.2.1,
            r.2.2)
        else
          ({ pf with forwarding_to_addr := none } :: rest,
            [HostCall.remove_rule pf.external_port,
              HostCall.add_rule pf.external_port addr pf.internal_port],
            false)
      else (pf :: rest, [HostCall.remove_rule pf.external_port], false)
    | none =>
      if oracle (HostCall.add_rule pf.external_port addr pf.internal_port) then
        let r := tickLoop oracle addr rest
        ({ pf with forwarding_to_addr := some addr } :: r.1,
          HostCall.add_rule pf.external_port addr pf.internal_port :: r.2.1,
          r.2.2)
      else
        (pf :: rest,
          [HostCall.add_rule pf.external_port addr pf.internal_port],
          false)

/-- remove_all_port_forwardings: remove every installed forwarding,
aborting on the first failing host call. -/
def removeAllLoop (oracle : HostCall → Bool) :
    List PortForwarding → List PortForwarding × List HostCall × Bool
  | [] => ([], [], true)
  | pf :: rest =>
    match pf.forwarding_to_addr with
    | none =>
      let r := removeAllLoop oracle rest
      (pf :: r.1, r.2.1, r.2.2)
    | some _ =>
      if oracle (HostCall.remove_rule pf.external_port) then
        let r := removeAllLoop oracle rest
        ({ pf with forwarding_to_addr := none } :: r.1,
          HostCall.remove_rule pf.external_port :: r.2.1, r.2.2)
      else (pf :: rest, [HostCall.remove_rule pf.external_port], false)

/-- PortForwarder::tick: a no-op once failed; otherwise run tick_inner
(remove everything without a lease or with an expired one, reconcile
against the lease address otherwise) and latch `failed` when any host
call failed.  Returns the new state and the trace of host calls. -/
def tick (oracle : HostCall → Bool) (f : PortForwarder) (lease : Option Lease)
    (now : Nat) : PortForwarder × List HostCall :=
  if f.failed then (f, [])
  else
    match lease with
    | some l =>
      if l.valid now then
        let r := tickLoop oracle l.address f.port_forwardings
        ({ port_forwardings := r.1, failed := !r.2.2 }, r.2.1)
      else
        let r := removeAllLoop oracle f.port_forwardings
        ({ port_forwardings := r.1, failed := !r.2.2 }, r.2.1)
    | none =>
      let r := removeAllLoop oracle f.port_forwardings
      ({ port_forwardings := r.1, failed := !r.2.2 }, r.2.1)

/-! ## Concrete fixtures

Concrete frames, leases and proxy states used to evaluate the filter on
the literal end-to-end scenarios of the specification (section 8). -/

/-- The VM MAC 02:00:00:00:00:01 used by the repository tests. -/
def vmMac : List Nat := [2, 0, 0, 0, 0, 1]

/-- A lease for 192.168.0.2 expiring at instant 600, no DNS servers. -/
def lease192 : Lease :=
  { address := mkIpv4 192 168 0 2, valid_until := 600, dns_ips := [] }

/-- A lease for 192.168.0.5 expiring at instant 600, no DNS servers. -/
def lease5 : Lease :=
  { address := mkIpv4 192 168 0 5, valid_until := 600, dns_ips := [] }

/-- A lease for 192.168.0.2 with DNS resolver set containing 1.1.1.1. -/
def leaseDns : Lease :=
  { address := mkIpv4 192 168 0 2, valid_until := 600, dns_ips := [mkIpv4 1 1 1 1] }

/-- A minimal 20-byte IPv4 header with the given source and destination
octets and protocol number. -/
def ipPkt (s1 s2 s3 s4 d1 d2 d3 d4 proto : Nat) : List Nat :=
  [0x45, 0, 0, 20, 0, 0, 0, 0, 64, proto, 0, 0, s1, s2, s3, s4, d1, d2, d3, d4]

/-- A 28-byte IPv4+UDP packet with the given addresses and ports. -/
def ipUdpPkt (s1 s2 s3 s4 d1 d2 d3 d4 sp dp : Nat) : List Nat :=
  [0x45, 0, 0, 28, 0, 0, 0, 0, 64, 17, 0, 0, s1, s2, s3, s4, d1, d2, d3, d4,
    sp / 256, sp % 256, dp / 256, dp % 256, 0, 8, 0, 0]

/-- A well-formed 28-byte Ethernet ARP payload (hlen 6, plen 4) with the
given source hardware and protocol addresses. -/
def arpPkt (sha spa : List Nat) : List Nat :=
  [0, 1, 8, 0, 6, 4, 0, 1] ++ sha ++ spa ++ [0, 0, 0, 0, 0, 0] ++ [0, 0, 0, 0]

/-- Scenario S1 proxy: Allow 66.66.0.0/16, Block 66.66.0.0/16, lease for
192.168.0.2, gateway 192.168.0.1, evaluated at instant 0. -/
def proxyS1 : Proxy :=
  { vm_mac_address := vmMac
    dhcp_snooper := some lease192
    rules := craft_rules [⟨mkIpv4 66 66 0 0, 16⟩] [⟨mkIpv4 66 66 0 0, 16⟩]
    gateway_ip := mkIpv4 192 168 0 1
    now := 0 }

/-- Scenario S2 proxy: Allow 33.33.33.33/32, Block 33.33.33.0/24. -/
def proxyS2 : Proxy :=
  { proxyS1 with
    rules := craft_rules [⟨mkIpv4 33 33 33 33, 32⟩] [⟨mkIpv4 33 33 33 0, 24⟩] }

/-- A proxy with no lease and an empty rule table (DHCP bootstrap state). -/
def proxyNoLease : Proxy :=
  { vm_mac_address := vmMac
    dhcp_snooper := none
    rules := []
    gateway_ip := mkIpv4 192 168 0 1
    now := 0 }

/-- Scenario S4 proxy after a lease for 192.168.0.5 was learned. -/
def proxyLease5 : Proxy := { proxyNoLease with dhcp_snooper := some lease5 }

/-- Scenario S5 proxy: lease for 192.168.0.2 with DNS resolver 1.1.1.1,
empty rule table. -/
def proxyDns : Proxy := { proxyNoLease with dhcp_snooper := some leaseDns }

/-- A lease for 192.168.0.2 whose DNS resolver set contains the private
address 192.168.0.53. -/
def lease192Dns : Lease :=
  { address := mkIpv4 192 168 0 2, valid_until := 600, dns_ips := [mkIpv4 192 168 0 53] }

/-- A proxy with lease192Dns and an empty rule table. -/
def proxyDns192 : Proxy := { proxyNoLease with dhcp_snooper := some lease192Dns }

/-- A proxy with a valid lease for 192.168.0.2 and an empty rule table. -/
def proxyNoRules : Proxy := { proxyNoLease with dhcp_snooper := some lease192 }

/-- A proxy with a valid lease and a non-empty rule table (Block
10.0.0.0/8) that does not match globally routable destinations. -/
def proxyRulesMiss : Proxy :=
  { proxyNoRules with rules := craft_rules [] [⟨mkIpv4 10 0 0 0, 8⟩] }

/-- An ARP body with hardware length 6 but protocol length 5: it passes
ArpPacket::check_len (30 bytes suffice) and carries sha = vmMac, yet its
source protocol address slice has 5 bytes. -/
def arpBad : List Nat :=
  [0, 1, 8, 0, 6, 5, 0, 1] ++ vmMac ++ [10, 0, 0, 1, 1]
    ++ [0, 0, 0, 0, 0, 0] ++ [0, 0, 0, 0, 0]

/-- An Ethernet frame from the VM MAC carrying arpBad. -/
def frameBad : List Nat :=
  [255, 255, 255, 255, 255, 255] ++ vmMac ++ [8, 6] ++ arpBad

/-- An Ethernet frame from the VM MAC carrying an IPv4 packet from
192.168.0.2 to 8.8.8.8. -/
def frameFwd : List Nat :=
  [0, 1, 2, 3, 4, 5] ++ vmMac ++ [8, 0] ++ ipPkt 192 168 0 2 8 8 8 8 6

/-- An Ethernet frame whose source MAC is not the VM MAC. -/
def frameSpoof : List Nat :=
  [0, 1, 2, 3, 4, 5] ++ [2, 0, 0, 0, 0, 9] ++ [8, 0] ++ ipPkt 192 168 0 2 8 8 8 8 6

/-- One port-forwarding 2222:22, not yet installed, not failed. -/
def forwarder2222 : PortForwarder :=
  { port_forwardings := [⟨2222, 22, none⟩], failed := false }

/-! ## Helper lemmas -/

/-- Any entry of the leased block implies a present, unexpired lease whose
address equals the packet source: every early return of the first block
of allowed_from_vm_ipv4 is guarded by lease.valid_ip_source(ipv4.src). -/
theorem leased_block_requires_valid_source (p : Proxy) (pkt : List Nat)
    (r : Option Unit) (h : allowed_from_vm_ipv4_leased p pkt = some r) :
    ∃ lease, p.dhcp_snooper = some lease ∧
      lease.valid_ip_source (ipv4SrcAddr pkt) p.now = true := by
  unfold allowed_from_vm_ipv4_leased at h
  cases hs : p.dhcp_snooper with
  | none => rw [hs] at h; exact absurd h (by simp)
  | some lease =>
    rw [hs] at h
    by_cases hv : lease.valid_ip_source (ipv4SrcAddr pkt) p.now = true
    · exact ⟨lease, rfl, hv⟩
    · simp [hv] at h

/-- The first four elements of a list with at least four elements. -/
theorem take_four_eq (m : List Nat) (h : 4 ≤ m.length) :
    m.take 4 = [m.getD 0 0, m.getD 1 0, m.getD 2 0, m.getD 3 0] := by
  match m with
  | a :: b :: c :: d :: t => simp [List.getD]
  | [] => simp at h
  | [a] => simp at h
  | [a, b] => simp at h
  | [a, b, c] => simp at h

/-- getD after drop reads at the shifted index. -/
theorem getD_drop (l : List Nat) (k i : Nat) :
    (l.drop k).getD i 0 = l.getD (k + i) 0 := by
  simp [List.getD_eq_getElem?_getD, List.getElem?_drop]

/-- Under ArpPacket::check_len and a protocol length of 4, the
source-protocol-address conversion succeeds and yields the big-endian
value of the four bytes at offset 8 + hlen. -/
theorem bytesToIpv4_spa (arp : List Nat) (h4 : arpProtocolLen arp = 4)
    (hchk : arpCheckLen arp = true) :
    bytesToIpv4 (arpSourceProtocolAddr arp)
      = some (ipv4At arp (8 + arpHardwareLen arp)) := by
  have hlen : 8 + 2 * arpHardwareLen arp + 2 * arpProtocolLen arp ≤ arp.length := by
    have := (Bool.and_eq_true _ _).mp hchk
    exact of_decide_eq_true this.2
  rw [h4] at hlen
  have hd : 4 ≤ (arp.drop (8 + arpHardwareLen arp)).length := by
    rw [List.length_drop]; omega
  unfold arpSourceProtocolAddr
  rw [h4, take_four_eq _ hd, getD_drop, getD_drop, getD_drop, getD_drop]
  simp [bytesToIpv4, ipv4At]

/-! ## Claim theorems -/

/-- C2: every frame read from the VM whose source MAC differs from the
configured vm_mac is dropped by the VM→host filter: process_frame_from_vm
returns normally without writing anything to the host interface,
regardless of ethertype or payload. -/
theorem process_frame_from_vm_drops_foreign_src_mac (p : Proxy)
    (frame : List Nat) (h : ethSrcAddr frame ≠ p.vm_mac_address) :
    process_frame_from_vm p frame = some none := by
  simp [process_frame_from_vm, allowed_from_vm, h]

/-- Witness for C2: a concrete frame whose source MAC 02:00:00:00:00:09
differs from the VM MAC is dropped. -/
theorem process_frame_from_vm_drops_foreign_src_mac_witness :
    process_frame_from_vm proxyNoLease frameSpoof = some none :=
  process_frame_from_vm_drops_foreign_src_mac proxyNoLease frameSpoof
    (by decide)

/-- C9: refuted on the code — a crafted ARP frame panics the filter.  The
frame frameBad passes EthernetFrame::new_checked and
ArpPacket::new_checked and carries the VM source MAC and source hardware
address, but declares a protocol-address length of 5, so
source_protocol_addr() is a 5-byte slice and the conversion
`try_into().unwrap()` in allowed_from_vm_arp fails; process_frame_from_vm
evaluates to the panic outcome (modelled as `none`). -/
theorem arp_spa_unwrap_panics :
    ethCheckLen frameBad = true
    ∧ arpCheckLen (ethPayload frameBad) = true
    ∧ arpSourceHardwareAddr (ethPayload frameBad) = vmMac
    ∧ arpProtocolLen (ethPayload frameBad) = 5
    ∧ process_frame_from_vm proxyNoLease frameBad = none := by
  decide

/-- C5: when no lease exists (so the leased block of the filter decides
nothing), a VM IPv4 packet is permitted if its protocol is UDP, the UDP
header parses, the UDP source port is 68 or the destination port is 67,
and the IPv4 destination is the limited broadcast 255.255.255.255.
Concretely, with no lease, the frame src 0.0.0.0 dst 255.255.255.255
UDP 68→67 is forwarded while the identical frame to 8.8.8.8 is dropped. -/
theorem dhcp_bootstrap_allowance :
    (∀ p pkt, p.dhcp_snooper = none →
      ipv4NextHeader pkt = 17 →
      udpCheckLen (ipv4Payload pkt) = true →
      (udpSrcPort (ipv4Payload pkt) = 68 ∨ udpDstPort (ipv4Payload pkt) = 67) →
      ipv4DstAddr pkt = mkIpv4 255 255 255 255 →
      allowed_from_vm_ipv4 p pkt = some ())
    ∧ allowed_from_vm_ipv4 proxyNoLease (ipUdpPkt 0 0 0 0 255 255 255 255 68 67)
        = some ()
    ∧ allowed_from_vm_ipv4 proxyNoLease (ipUdpPkt 0 0 0 0 8 8 8 8 68 67)
        = none := by
  refine ⟨?_, by decide, by decide⟩
  intro p pkt hno hproto hchk hports hbc
  have hleased : allowed_from_vm_ipv4_leased p pkt = none := by
    unfold allowed_from_vm_ipv4_leased; rw [hno]
  unfold allowed_from_vm_ipv4
  rw [hleased]
  rcases hports with h | h <;>
    simp [hproto, hchk, is_dhcp_request, isBroadcastAddr, hbc, h]

/-- Witness for C5: the general clause applied to the concrete bootstrap
state and DHCP discover packet. -/
theorem dhcp_bootstrap_allowance_witness :
    allowed_from_vm_ipv4 proxyNoLease (ipUdpPkt 0 0 0 0 255 255 255 255 68 67)
      = some () :=
  dhcp_bootstrap_allowance.1 proxyNoLease
    (ipUdpPkt 0 0 0 0 255 255 255 255 68 67)
    (by decide) (by decide) (by decide) (Or.inl (by decide)) (by decide)

/-- C7: under a valid lease matching the packet source, when the rule
table lookup finds nothing and the destination is neither globally
routable nor the gateway, a parseable UDP packet to port 53 whose
destination is one of the lease DNS resolvers is permitted.  Concretely,
with lease (192.168.0.2, dns=[1.1.1.1]) and an empty rule table, the UDP
packet 192.168.0.2 → 1.1.1.1:53 is forwarded. -/
theorem dns_allowance :
    (∀ p pkt lease, p.dhcp_snooper = some lease →
      lease.valid_ip_source (ipv4SrcAddr pkt) p.now = true →
      get_lpm p.rules (ipv4DstAddr pkt) = none →
      is_global (ipv4DstAddr pkt) = false →
      ipv4DstAddr pkt ≠ p.gateway_ip →
      ipv4NextHeader pkt = 17 →
      udpCheckLen (ipv4Payload pkt) = true →
      udpDstPort (ipv4Payload pkt) = 53 →
      lease.dns_ips.contains (ipv4DstAddr pkt) = true →
      allowed_from_vm_ipv4 p pkt = some ())
    ∧ allowed_from_vm_ipv4 proxyDns (ipUdpPkt 192 168 0 2 1 1 1 1 5000 53)
        = some () := by
  refine ⟨?_, by decide⟩
  intro p pkt lease hs hv hlpm hng hngw hproto hchk hport hdns
  have hmatch : (if p.rules = [] then none
      else get_lpm p.rules (ipv4DstAddr pkt)) = (none : Option (Ipv4Net × Action)) := by
    by_cases he : p.rules = [] <;> simp [he, hlpm]
  have hdns2 : ipv4DstAddr pkt ∈ lease.dns_ips := by simpa using hdns
  have hleased : allowed_from_vm_ipv4_leased p pkt = some (some ()) := by
    unfold allowed_from_vm_ipv4_leased
    rw [hs]
    simp [hv, hmatch, hng, hngw, hproto, hchk, is_dns_request, hport,
      valid_dns_target, hdns2]
  unfold allowed_from_vm_ipv4
  rw [hleased]

/-- Witness for C7: the general clause applied to the concrete S5 proxy
and DNS request.  1.1.1.1 is globally routable, so the general clause is
instead witnessed on a private resolver 192.168.0.53 reachable only
through the DNS allowance. -/
theorem dns_allowance_witness :
    allowed_from_vm_ipv4 proxyDns192 (ipUdpPkt 192 168 0 2 192 168 0 53 5000 53)
      = some () :=
  dns_allowance.1 proxyDns192 (ipUdpPkt 192 168 0 2 192 168 0 53 5000 53)
    lease192Dns (by decide) (by decide) (by decide) (by decide) (by decide)
    (by decide) (by decide) (by decide) (by decide)

/-- C10: when a valid lease matches the source and the rule table is
non-empty but the longest-prefix lookup finds no entry containing the
destination, the filter does not drop outright: globally-routable
destinations, the gateway, and parseable UDP port-53 traffic to learned
resolvers are still permitted. -/
theorem unmatched_rules_fall_through :
    ∀ p pkt lease, p.dhcp_snooper = some lease →
      lease.valid_ip_source (ipv4SrcAddr pkt) p.now = true →
      p.rules ≠ [] →
      get_lpm p.rules (ipv4DstAddr pkt) = none →
      ((is_global (ipv4DstAddr pkt) = true → allowed_from_vm_ipv4 p pkt = some ())
        ∧ (ipv4DstAddr pkt = p.gateway_ip → allowed_from_vm_ipv4 p pkt = some ())
        ∧ (ipv4NextHeader pkt = 17 →
            udpCheckLen (ipv4Payload pkt) = true →
            udpDstPort (ipv4Payload pkt) = 53 →
            lease.dns_ips.contains (ipv4DstAddr pkt) = true →
            allowed_from_vm_ipv4 p pkt = some ())) := by
  intro p pkt lease hs hv hne hlpm
  have hmatch : (if p.rules = [] then none
      else get_lpm p.rules (ipv4DstAddr pkt)) = (none : Option (Ipv4Net × Action)) := by
    by_cases he : p.rules = [] <;> simp [he, hlpm]
  refine ⟨?_, ?_, ?_⟩
  · intro hg
    have hleased : allowed_from_vm_ipv4_leased p pkt = some (some ()) := by
      unfold allowed_from_vm_ipv4_leased
      rw [hs]
      simp [hv, hmatch, hg]
    unfold allowed_from_vm_ipv4; rw [hleased]
  · intro hgw
    have hmatchg : (if p.rules = [] then none
        else get_lpm p.rules p.gateway_ip) = (none : Option (Ipv4Net × Action)) := by
      rw [← hgw]; exact hmatch
    have hleased : allowed_from_vm_ipv4_leased p pkt = some (some ()) := by
      unfold allowed_from_vm_ipv4_leased
      rw [hs]
      by_cases hg : is_global (ipv4DstAddr pkt) = true <;>
        simp [hv, hmatch, hmatchg, hg, hgw]
    unfold allowed_from_vm_ipv4; rw [hleased]
  · intro hproto hchk hport hdns
    have hdns2 : ipv4DstAddr pkt ∈ lease.dns_ips := by simpa using hdns
    have hleased : allowed_from_vm_ipv4_leased p pkt = some (some ()) := by
      unfold allowed_from_vm_ipv4_leased
      rw [hs]
      by_cases hg : is_global (ipv4DstAddr pkt) = true
      · simp [hv, hmatch, hg]
      · by_cases hgw : ipv4DstAddr pkt = p.gateway_ip
        · have hmatchg : (if p.rules = [] then none
              else get_lpm p.rules p.gateway_ip) = (none : Option (Ipv4Net × Action)) := by
            rw [← hgw]; exact hmatch
          simp [hv, hmatch, hmatchg, hg, hgw]
        · simp [hv, hmatch, hg, hgw, hproto, hchk, is_dns_request, hport,
            valid_dns_target, hdns2]
    unfold allowed_from_vm_ipv4; rw [hleased]

/-- Witness for C10: a proxy whose only rule is Block 10.0.0.0/8 and a
packet to 8.8.8.8 — the rule table is non-empty, the lookup misses, and
the globally-routable clause still permits the packet. -/
theorem unmatched_rules_fall_through_witness :
    allowed_from_vm_ipv4 proxyRulesMiss (ipPkt 192 168 0 2 8 8 8 8 6)
      = some () :=
  (unmatched_rules_fall_through proxyRulesMiss (ipPkt 192 168 0 2 8 8 8 8 6)
    lease192 (by decide) (by decide) (by decide) (by decide)).1 (by decide)

/-- C6: a VM→host ARP frame (with the standard 4-byte protocol address
length, so the address conversion succeeds) is permitted iff its source
hardware address equals vm_mac and: with a lease, valid_ip_source holds
of the source protocol address; without one, the source protocol address
is 0.0.0.0.  Concretely: with no lease, sha=vm_mac spa=0.0.0.0 is
forwarded; under a lease for 192.168.0.5, spa=192.168.0.5 is forwarded
and spa=192.168.0.6 is dropped. -/
theorem allowed_from_vm_arp_spec :
    (∀ p arp, arpProtocolLen arp = 4 → arpCheckLen arp = true →
      (allowed_from_vm_arp p arp = some (some ()) ↔
        arpSourceHardwareAddr arp = p.vm_mac_address ∧
          ((∃ l, p.dhcp_snooper = some l ∧
              l.valid_ip_source (ipv4At arp (8 + arpHardwareLen arp)) p.now = true)
            ∨ p.dhcp_snooper = none ∧ ipv4At arp (8 + arpHardwareLen arp) = 0)))
    ∧ allowed_from_vm_arp proxyNoLease (arpPkt vmMac [0, 0, 0, 0]) = some (some ())
    ∧ allowed_from_vm_arp proxyLease5 (arpPkt vmMac [192, 168, 0, 5]) = some (some ())
    ∧ allowed_from_vm_arp proxyLease5 (arpPkt vmMac [192, 168, 0, 6]) = some none := by
  refine ⟨?_, by decide, by decide, by decide⟩
  intro p arp h4 hchk
  have hspa := bytesToIpv4_spa arp h4 hchk
  unfold allowed_from_vm_arp
  by_cases hsha : arpSourceHardwareAddr arp = p.vm_mac_address
  · rw [if_neg (show ¬arpSourceHardwareAddr arp ≠ p.vm_mac_address from
      fun hne => hne hsha)]
    rw [hspa]
    cases hs : p.dhcp_snooper with
    | some lease =>
      dsimp only
      by_cases hv : lease.valid_ip_source (ipv4At arp (8 + arpHardwareLen arp)) p.now
        = true
      · rw [if_pos hv]
        exact ⟨fun _ => ⟨hsha, Or.inl ⟨lease, rfl, hv⟩⟩, fun _ => rfl⟩
      · rw [if_neg hv]
        constructor
        · intro hcontra; exact absurd hcontra (by simp)
        · rintro ⟨-, h | h⟩
          · obtain ⟨l, hl, hlv⟩ := h
            cases hl
            exact absurd hlv hv
          · exact absurd h.1 (by simp)
    | none =>
      dsimp only
      by_cases hz : (ipv4At arp (8 + arpHardwareLen arp) == 0) = true
      · rw [if_pos hz]
        exact ⟨fun _ => ⟨hsha, Or.inr ⟨rfl, by simpa using hz⟩⟩, fun _ => rfl⟩
      · rw [if_neg hz]
        constructor
        · intro hcontra; exact absurd hcontra (by simp)
        · rintro ⟨-, h | h⟩
          · obtain ⟨l, hl, -⟩ := h
            exact absurd hl (by simp)
          · exact absurd h.2 (by simpa using hz)
  · rw [if_pos hsha]
    simp [hsha]

/-- Witness for C6: the general characterisation applied to the bootstrap
ARP probe (no lease, spa 0.0.0.0). -/
theorem allowed_from_vm_arp_spec_witness :
    allowed_from_vm_arp proxyNoLease (arpPkt vmMac [0, 0, 0, 0])
      = some (some ()) :=
  (allowed_from_vm_arp_spec.1 proxyNoLease (arpPkt vmMac [0, 0, 0, 0])
    (by decide) (by decide)).mpr ⟨by decide, Or.inr ⟨by decide, by decide⟩⟩

/-- C1: every frame forwarded VM→host whose payload is an IPv4 packet to
a non-broadcast (in particular any unicast) destination other than the
gateway satisfies: either a valid lease exists with ipv4.src equal to
the lease address, or the frame is a DHCP client request (UDP source
port 68 or destination port 67) to the limited broadcast (impossible
here, so in fact the lease case holds). -/
theorem forwarded_ipv4_unicast_lease_or_dhcp (p : Proxy) (frame : List Nat)
    (hfwd : process_frame_from_vm p frame = some (some frame))
    (heth : ethertype frame = 0x0800)
    (hbc : isBroadcastAddr (ipv4DstAddr (ethPayload frame)) = false)
    (hmc : ipv4InNet (ipv4DstAddr (ethPayload frame)) (mkIpv4 224 0 0 0) 4 = false)
    (hgw : ipv4DstAddr (ethPayload frame) ≠ p.gateway_ip) :
    (∃ lease, p.dhcp_snooper = some lease ∧
        lease.valid_ip_source (ipv4SrcAddr (ethPayload frame)) p.now = true)
      ∨ (is_dhcp_request (ipv4Payload (ethPayload frame)) = true
          ∧ isBroadcastAddr (ipv4DstAddr (ethPayload frame)) = true) := by
  have hallow : allowed_from_vm p frame = some (some ()) := by
    unfold process_frame_from_vm at hfwd
    cases ha : allowed_from_vm p frame with
    | none => rw [ha] at hfwd; exact absurd hfwd (by simp)
    | some r =>
      cases r with
      | none => rw [ha] at hfwd; exact absurd hfwd (by simp)
      | some u => cases u; rfl
  unfold allowed_from_vm at hallow
  by_cases hmac : ethSrcAddr frame ≠ p.vm_mac_address
  · rw [if_pos hmac] at hallow; exact absurd hallow (by simp)
  · rw [if_neg hmac] at hallow
    rw [heth] at hallow
    simp only [show ((0x0800 : Nat) == 0x0806) = false from rfl,
      show ((0x0800 : Nat) == 0x0800) = true from rfl] at hallow
    simp only [Bool.false_eq_true, if_false, if_true] at hallow
    by_cases hchk : ipv4CheckLen (ethPayload frame) = true
    · rw [if_pos hchk] at hallow
      have hip : allowed_from_vm_ipv4 p (ethPayload frame) = some () := by
        simpa using hallow
      cases hL : allowed_from_vm_ipv4_leased p (ethPayload frame) with
      | some r =>
        exact Or.inl (leased_block_requires_valid_source p (ethPayload frame) r hL)
      | none =>
        right
        unfold allowed_from_vm_ipv4 at hip
        rw [hL] at hip
        dsimp only at hip
        by_cases hp : (ipv4NextHeader (ethPayload frame) == 17) = true
        · by_cases hu : udpCheckLen (ipv4Payload (ethPayload frame)) = true
          · rw [if_pos hp, if_pos hu] at hip
            by_cases hd : (is_dhcp_request (ipv4Payload (ethPayload frame))
                && isBroadcastAddr (ipv4DstAddr (ethPayload frame))) = true
            · exact (Bool.and_eq_true _ _).mp hd
            · rw [if_neg hd] at hip
              exact absurd hip (by simp)
          · rw [if_pos hp, if_neg hu] at hip
            exact absurd hip (by simp)
        · rw [if_neg hp] at hip
          exact absurd hip (by simp)
    · rw [if_neg hchk] at hallow; exact absurd hallow (by simp)

/-- Witness for C1: a concrete forwarded frame from 192.168.0.2 (the
leased address) to 8.8.8.8 satisfies the invariant. -/
theorem forwarded_ipv4_unicast_lease_or_dhcp_witness :
    (∃ lease, proxyNoRules.dhcp_snooper = some lease ∧
        lease.valid_ip_source (ipv4SrcAddr (ethPayload frameFwd))
          proxyNoRules.now = true)
      ∨ (is_dhcp_request (ipv4Payload (ethPayload frameFwd)) = true
          ∧ isBroadcastAddr (ipv4DstAddr (ethPayload frameFwd)) = true) :=
  forwarded_ipv4_unicast_lease_or_dhcp proxyNoRules frameFwd
    (by decide) (by decide) (by decide) (by decide) (by decide)

/-- sameKey is reflexive. -/
theorem sameKey_refl (k : Ipv4Net) : sameKey k k = true := by simp [sameKey]

/-- Looking up the just-inserted key yields the just-inserted value. -/
theorem rulesLookup_insert_self (rs : List (Ipv4Net × Action)) (k : Ipv4Net)
    (a : Action) : rulesLookup (rulesInsert rs k a) k = some a := by
  induction rs with
  | nil => simp [rulesInsert, rulesLookup, sameKey_refl]
  | cons e rest ih =>
    by_cases h : sameKey e.1 k = true
    · simp [rulesInsert, rulesLookup, h]
    · simp [rulesInsert, rulesLookup, h, ih]

/-- Inserting value `a` anywhere preserves a lookup that already
returns `a`. -/
theorem rulesLookup_insert_preserve (rs : List (Ipv4Net × Action))
    (k q : Ipv4Net) (a : Action) (h : rulesLookup rs k = some a) :
    rulesLookup (rulesInsert rs q a) k = some a := by
  induction rs with
  | nil => simp [rulesLookup] at h
  | cons e rest ih =>
    by_cases hq : sameKey e.1 q = true
    · by_cases hk : sameKey e.1 k = true
      · simp [rulesInsert, rulesLookup, hq, hk]
      · simp only [rulesLookup, hk, Bool.false_eq_true, if_false] at h
        simp [rulesInsert, rulesLookup, hq, hk, h]
    · by_cases hk : sameKey e.1 k = true
      · simp only [rulesLookup, hk, if_true] at h
        simp [rulesInsert, rulesLookup, hq, hk, h]
      · simp only [rulesLookup, hk, Bool.false_eq_true, if_false] at h
        simp [rulesInsert, rulesLookup, hq, hk, ih h]

/-- After folding the Block inserts over any base map, every key that is
in the block list (or already looked up Block) looks up Block. -/
theorem craft_blocks_lookup (blocks : List Ipv4Net)
    (rs : List (Ipv4Net × Action)) (k : Ipv4Net)
    (h : k ∈ blocks ∨ rulesLookup rs k = some Action.Block) :
    rulesLookup (blocks.foldl (fun acc n => rulesInsert acc n Action.Block) rs) k
      = some Action.Block := by
  induction blocks generalizing rs with
  | nil =>
    simp only [List.foldl_nil]
    rcases h with hmem | hlk
    · exact absurd hmem (List.not_mem_nil k)
    · exact hlk
  | cons b bs ih =>
    simp only [List.foldl_cons]
    rcases h with hmem | hlk
    · rcases List.mem_cons.mp hmem with rfl | hmem2
      · exact ih _ (Or.inr (rulesLookup_insert_self rs k Action.Block))
      · exact ih _ (Or.inl hmem2)
    · exact ih _ (Or.inr (rulesLookup_insert_preserve rs k b Action.Block hlk))

/-- C3: rule-table decisions under a valid matching lease: a
longest-prefix hit decides Allow→permit / Block→drop; a prefix present
in both the Allow and the Block sets maps to Block in the crafted table
(allows are inserted first, blocks overwrite); on the concrete scenarios
with lease 192.168.0.2: Allow 66.66.0.0/16 + Block 66.66.0.0/16 drops
dst 66.66.66.66, and Allow 33.33.33.33/32 + Block 33.33.33.0/24 drops
33.33.33.32, forwards 33.33.33.33 and drops 33.33.33.34. -/
theorem rule_table_block_precedence :
    (∀ allows blocks net, net ∈ allows → net ∈ blocks →
        rulesLookup (craft_rules allows blocks) net = some Action.Block)
    ∧ (∀ p pkt lease n act, p.dhcp_snooper = some lease →
        lease.valid_ip_source (ipv4SrcAddr pkt) p.now = true →
        p.rules ≠ [] →
        get_lpm p.rules (ipv4DstAddr pkt) = some (n, act) →
        (allowed_from_vm_ipv4 p pkt = some () ↔ act = Action.Allow))
    ∧ allowed_from_vm_ipv4 proxyS1 (ipPkt 192 168 0 2 66 66 66 66 6) = none
    ∧ allowed_from_vm_ipv4 proxyS2 (ipPkt 192 168 0 2 33 33 33 32 6) = none
    ∧ allowed_from_vm_ipv4 proxyS2 (ipPkt 192 168 0 2 33 33 33 33 6) = some ()
    ∧ allowed_from_vm_ipv4 proxyS2 (ipPkt 192 168 0 2 33 33 33 34 6) = none := by
  refine ⟨?_, ?_, by decide, by decide, by decide, by decide⟩
  · intro allows blocks net _ hblk
    exact craft_blocks_lookup blocks _ net (Or.inl hblk)
  · intro p pkt lease n act hs hv hne hlpm
    cases act with
    | Allow =>
      have hleased : allowed_from_vm_ipv4_leased p pkt = some (some ()) := by
        unfold allowed_from_vm_ipv4_leased
        rw [hs]
        simp [hv, hne, hlpm]
      unfold allowed_from_vm_ipv4
      rw [hleased]
      simp
    | Block =>
      have hleased : allowed_from_vm_ipv4_leased p pkt = some none := by
        unfold allowed_from_vm_ipv4_leased
        rw [hs]
        simp [hv, hne, hlpm]
      unfold allowed_from_vm_ipv4
      rw [hleased]
      simp

/-- Witness for C3: the identical prefix 66.66.0.0/16 present in both
sets maps to Block in the crafted table. -/
theorem rule_table_block_precedence_witness :
    rulesLookup (craft_rules [⟨mkIpv4 66 66 0 0, 16⟩] [⟨mkIpv4 66 66 0 0, 16⟩])
      ⟨mkIpv4 66 66 0 0, 16⟩ = some Action.Block :=
  rule_table_block_precedence.1 [⟨mkIpv4 66 66 0 0, 16⟩]
    [⟨mkIpv4 66 66 0 0, 16⟩] ⟨mkIpv4 66 66 0 0, 16⟩ (by decide) (by decide)

/-- C4: register_dhcp_reply changes the snooper state exactly as
specified: a decodable ACK carrying an AddressLeaseTime option replaces
the lease with yiaddr, now + lease_time and the DomainNameServer set
(empty when absent); a NAK clears it; an undecodable payload, an ACK
without AddressLeaseTime and every other message type leave it
unchanged; and registering an ACK for yiaddr Y, lease time T and DNS
servers D1, D2 yields a lease with valid_ip_source Y (while unexpired)
and valid_dns_target D1 and D2. -/
theorem register_dhcp_reply_spec :
    (∀ cur now m t, m.msg_type = some MessageType.Ack →
        m.address_lease_time = some t →
        register_dhcp_reply cur now (some m)
          = some ⟨m.yiaddr, now + t, m.domain_name_server.getD []⟩)
    ∧ (∀ cur now m, m.msg_type = some MessageType.Nak →
        register_dhcp_reply cur now (some m) = none)
    ∧ (∀ cur now, register_dhcp_reply cur now none = cur)
    ∧ (∀ cur now m, m.msg_type = some MessageType.Ack →
        m.address_lease_time = none →
        register_dhcp_reply cur now (some m) = cur)
    ∧ (∀ cur now m, m.msg_type = none ∨ m.msg_type = some MessageType.Other →
        register_dhcp_reply cur now (some m) = cur)
    ∧ (∀ cur now now2 yi t d1 d2, now2 < now + t →
        ∃ l, register_dhcp_reply cur now
              (some ⟨some MessageType.Ack, yi, some t, some [d1, d2]⟩) = some l
          ∧ l.valid_ip_source yi now2 = true
          ∧ valid_dns_target (some l) d1 = true
          ∧ valid_dns_target (some l) d2 = true) := by
  refine ⟨?_, ?_, ?_, ?_, ?_, ?_⟩
  · intro cur now m t hmt hlt
    simp [register_dhcp_reply, hmt, hlt]
  · intro cur now m hmt
    simp [register_dhcp_reply, hmt]
  · intro cur now
    simp [register_dhcp_reply]
  · intro cur now m hmt hlt
    simp [register_dhcp_reply, hmt, hlt]
  · intro cur now m hmt
    rcases hmt with hmt | hmt <;> simp [register_dhcp_reply, hmt]
  · intro cur now now2 yi t d1 d2 hlt
    refine ⟨⟨yi, now + t, [d1, d2]⟩, rfl, ?_, ?_, ?_⟩
    · simp [Lease.valid_ip_source, Lease.valid, hlt]
    · simp [valid_dns_target]
    · simp [valid_dns_target]

/-- Witness for C4: the round-trip clause at a concrete ACK for
192.168.0.7 with lease time 600 and DNS servers 1.1.1.1 and 8.8.8.8,
queried at instant 5. -/
theorem register_dhcp_reply_spec_witness :
    ∃ l, register_dhcp_reply none 0
          (some ⟨some MessageType.Ack, mkIpv4 192 168 0 7, some 600,
            some [mkIpv4 1 1 1 1, mkIpv4 8 8 8 8]⟩) = some l
      ∧ l.valid_ip_source (mkIpv4 192 168 0 7) 5 = true
      ∧ valid_dns_target (some l) (mkIpv4 1 1 1 1) = true
      ∧ valid_dns_target (some l) (mkIpv4 8 8 8 8) = true :=
  register_dhcp_reply_spec.2.2.2.2.2 none 0 5 (mkIpv4 192 168 0 7) 600
    (mkIpv4 1 1 1 1) (mkIpv4 8 8 8 8) (by decide)

/-- When the reconcile loop succeeds, every resulting forwarding is
installed for the lease address. -/
theorem tickLoop_ok_installed (oracle : HostCall → Bool) (addr : Nat) :
    ∀ pfs : List PortForwarding, (tickLoop oracle addr pfs).2.2 = true →
      ∀ pf ∈ (tickLoop oracle addr pfs).1, pf.forwarding_to_addr = some addr := by
  intro pfs
  induction pfs with
  | nil => intro _ pf hpf; simp [tickLoop] at hpf
  | cons hd rest ih =>
    intro hok pf hpf
    cases hinst : hd.forwarding_to_addr with
    | some a =>
      by_cases ha : (a == addr) = true
      · simp only [tickLoop, hinst, ha, if_true] at hok hpf
        rcases List.mem_cons.mp hpf with rfl | hpf2
        · rw [hinst]; exact congrArg some (by simpa using ha)
        · exact ih hok pf hpf2
      · by_cases hrem : oracle (HostCall.remove_rule hd.external_port) = true
        · by_cases hadd : oracle
              (HostCall.add_rule hd.external_port addr hd.internal_port) = true
          · simp only [tickLoop, hinst, ha, hrem, hadd, if_true, if_false] at hok hpf
            rcases List.mem_cons.mp hpf with rfl | hpf2
            · rfl
            · exact ih hok pf hpf2
          · simp [tickLoop, hinst, ha, hrem, hadd] at hok
        · simp [tickLoop, hinst, ha, hrem] at hok
    | none =>
      by_cases hadd : oracle
          (HostCall.add_rule hd.external_port addr hd.internal_port) = true
      · simp only [tickLoop, hinst, hadd, if_true] at hok hpf
        rcases List.mem_cons.mp hpf with rfl | hpf2
        · rfl
        · exact ih hok pf hpf2
      · simp [tickLoop, hinst, hadd] at hok

/-- When every forwarding is already installed for the lease address, the
reconcile loop changes nothing and issues no host calls. -/
theorem tickLoop_stable (oracle : HostCall → Bool) (addr : Nat) :
    ∀ pfs : List PortForwarding,
      (∀ pf ∈ pfs, pf.forwarding_to_addr = some addr) →
      tickLoop oracle addr pfs = (pfs, [], true) := by
  intro pfs
  induction pfs with
  | nil => intro _; simp [tickLoop]
  | cons hd rest ih =>
    intro h
    have hhd := h hd (by simp)
    have hrest := ih fun pf hpf => h pf (by simp [hpf])
    simp [tickLoop, hhd, hrest]

/-- C8: PortForwarder.tick called again with the same valid lease (same
address, still unexpired) performs zero host mutations and leaves the
forwarder state unchanged; hence all host mutations happen during the
first call only, and every subsequent tick issues zero add_rule and zero
remove_rule calls. -/
theorem port_forwarder_tick_idempotent :
    ∀ (oracle : HostCall → Bool) (f : PortForwarder) (l : Lease)
      (now1 now2 : Nat),
      now1 < l.valid_until → now2 < l.valid_until →
      tick oracle (tick oracle f (some l) now1).1 (some l) now2
        = ((tick oracle f (some l) now1).1, []) := by
  intro oracle f l now1 now2 h1 h2
  by_cases hf : f.failed = true
  · simp [tick, hf]
  · have hf' : f.failed = false := by
      revert hf; cases f.failed <;> simp
    have hv1 : l.valid now1 = true := by simp [Lease.valid, h1]
    have hv2 : l.valid now2 = true := by simp [Lease.valid, h2]
    have hfirst : tick oracle f (some l) now1
        = ({ port_forwardings := (tickLoop oracle l.address f.port_forwardings).1,
             failed := !(tickLoop oracle l.address f.port_forwardings).2.2 },
           (tickLoop oracle l.address f.port_forwardings).2.1) := by
      simp [tick, hf', hv1]
    rw [hfirst]
    by_cases hok : (tickLoop oracle l.address f.port_forwardings).2.2 = true
    · have hst : tickLoop oracle l.address
          (tickLoop oracle l.address f.port_forwardings).1
          = ((tickLoop oracle l.address f.port_forwardings).1, [], true) :=
        tickLoop_stable oracle l.address _
          (tickLoop_ok_installed oracle l.address f.port_forwardings hok)
      simp [tick, hok, hv2, hst]
    · have hok' : (tickLoop oracle l.address f.port_forwardings).2.2 = false := by
        revert hok; cases (tickLoop oracle l.address f.port_forwardings).2.2 <;> simp
      simp [tick, hok']

/-- Witness for C8: one exposed port 2222:22, an always-succeeding host,
and the lease for 192.168.0.2 queried at instants 0 and 10. -/
theorem port_forwarder_tick_idempotent_witness :
    tick (fun _ => true)
        (tick (fun _ => true) forwarder2222 (some lease192) 0).1
        (some lease192) 10
      = ((tick (fun _ => true) forwarder2222 (some lease192) 0).1, []) :=
  port_forwarder_tick_idempotent (fun _ => true) forwarder2222 lease192 0 10
    (by decide) (by decide)

end Softnet
